import Mathlib

/-!
Verification of the snow-tracker station analytics engine: the functions
`dateToDOWY`, `waterYearDates`, `dateToWY`, `linearRegression` and
`computeAnalytics` of `src/App.tsx` (the same code appears verbatim in the
unnamed source part 003).

Embedding conventions:
* JavaScript numbers are modelled as rationals (`ℚ`), nullable numbers as
  `Option ℚ`.
* ISO `"YYYY-MM-DD"` date strings are modelled as `CalDate` records with a
  0-indexed month (as returned by JavaScript `Date.getMonth()`), ordered
  lexicographically — on well-formed zero-padded ISO strings this order
  coincides with the string comparisons (`localeCompare`, `>=`) the source
  applies to its `date` fields.
* `Array.prototype.sort` (stable per the ECMAScript specification) is
  modelled as `List.insertionSort`, which is stable.
* `Math.round` (halves toward positive infinity) is `jsRound`.
* Differences of `Date.getTime()` values divided by 86400000 are modelled
  as exact day-count differences via `dayNumber`, i.e. a clock with a fixed
  UTC offset and no daylight-saving jumps; at the scalar of whole calendar
  days this matches the source's `Math.floor(... / 86400000)` and
  `Math.round(... / 86400000)`.
* `Object.entries` over an object keyed by water-year numbers iterates in
  ascending numeric key order (integer-like keys, per ECMAScript);
  `byWY` therefore lists its groups in ascending key order.
* The float literal `0.15` is modelled as the exact rational `3/20`.
* The wall-clock date that `computeAnalytics` reads internally (via
  `new Date()` in `waterYearDates()` and `new Date().toISOString()`) is an
  explicit `today : CalDate` argument of the embedding, since Lean
  functions are pure.
-/

namespace SnowTracker

/-- A calendar date; `month` is 0-indexed exactly like JavaScript
`Date.getMonth()` (0 = January, 9 = October). -/
structure CalDate where
  year : ℕ
  month : ℕ
  day : ℕ
deriving DecidableEq, Repr

instance : Inhabited CalDate := ⟨⟨0, 0, 0⟩⟩

/-- Dates compare lexicographically by (year, month, day), matching the
string order of well-formed ISO date strings used throughout the source. -/
instance : LinearOrder CalDate :=
  LinearOrder.lift' (fun d => toLex (d.year, toLex (d.month, d.day)))
    (fun a b h => by
      cases a; cases b
      simp only [toLex, Equiv.refl_apply, Prod.mk.injEq] at h
      simp_all)

/-- Gregorian leap-year test (as implemented by the JavaScript `Date`). -/
def isLeap (y : ℕ) : Bool := (y % 4 == 0 && y % 100 != 0) || y % 400 == 0

/-- Days in the months before 0-indexed month `m` of year `y`. -/
def daysBeforeMonth (y m : ℕ) : ℕ :=
  let base := [0, 31, 59, 90, 120, 151, 181, 212, 243, 273, 304, 334].getD m 0
  if 2 ≤ m ∧ isLeap y then base + 1 else base

/-- Days in the proleptic Gregorian years `0, …, y-1`. -/
def daysBeforeYear (y : ℕ) : ℕ :=
  365 * y + (y + 3) / 4 + (y + 399) / 400 - (y + 99) / 100

/-- Absolute day index of a date (day 0 = Jan 1 of year 0).  Differences of
`dayNumber` model the exact whole-day differences of `getTime()` values
that the source divides by 86400000. -/
def dayNumber (d : CalDate) : ℕ :=
  daysBeforeYear d.year + daysBeforeMonth d.year d.month + (d.day - 1)

/-- Embeds `dateToWY` (App.tsx): the water year a date belongs to
(`month ≥ October ? year + 1 : year`). -/
def dateToWY (d : CalDate) : ℤ :=
  if 9 ≤ d.month then (d.year : ℤ) + 1 else (d.year : ℤ)

/-- The `wyYear` field of `waterYearDates()` (App.tsx): the *starting*
calendar year of the water year containing the given date. -/
def wyStartYear (d : CalDate) : ℤ :=
  if 9 ≤ d.month then (d.year : ℤ) else (d.year : ℤ) - 1

/-- Embeds `dateToDOWY` (App.tsx): 1-based day-of-water-year index
(Oct 1 = 1). -/
def dateToDOWY (d : CalDate) : ℤ :=
  let wy : ℕ := if 9 ≤ d.month then d.year else d.year - 1
  (dayNumber d : ℤ) - (dayNumber ⟨wy, 9, 1⟩ : ℤ) + 1

/-- Embeds `Math.round`: nearest integer, halves toward positive infinity. -/
def jsRound (q : ℚ) : ℤ := ⌊q + 1/2⌋

/-- JavaScript truthiness of a nullable number (`null`/`undefined` and `0`
are falsy). -/
def truthy : Option ℚ → Bool
  | none => false
  | some v => v != 0

/-- Embeds `Math.max(...)` over a list (`none` for the empty spread, which the
source never reaches). -/
def listMax : List ℚ → Option ℚ
  | [] => none
  | a :: t => some (t.foldl max a)

/-- Embeds `Math.min(...)` over a list. -/
def listMin : List ℚ → Option ℚ
  | [] => none
  | a :: t => some (t.foldl min a)

/-- Minimum of a list of dates (used only in specification statements to
express "earliest date"). -/
def listMinDate : List CalDate → Option CalDate
  | [] => none
  | a :: t => some (t.foldl min a)

/-- A period-of-record daily data point (`PORDay` in the source). -/
structure PORDay where
  date : CalDate
  swe : Option ℚ
deriving DecidableEq, Repr

instance : Inhabited PORDay := ⟨⟨default, none⟩⟩

/-- One point of the current-water-year hydrograph (`HydroPoint`). -/
structure HydroPoint where
  date : CalDate
  dowy : ℤ
  swe : Option ℚ
  median : Option ℚ
  pctMedian : Option ℚ
deriving DecidableEq, Repr

/-- Station metadata / current-value snapshot (`SnotelStation`). -/
structure SnotelStation where
  id : String
  name : String
  state : String
  elevation : ℚ
  lat : ℚ
  lon : ℚ
  swe : Option ℚ
  pctMedian : Option ℚ
deriving DecidableEq, Repr

/-- One per-water-year summary (the element type of
`StationAnalytics.waterYears`). -/
structure WYSummary where
  wy : ℤ
  peakSWE : ℚ
  peakDate : CalDate
  onsetDate : Option CalDate
  meltOutDate : Option CalDate
  seasonDays : ℤ
deriving DecidableEq, Repr

instance : Inhabited WYSummary := ⟨⟨0, 0, default, none, none, 0⟩⟩

/-- Result record of `linearRegression`. -/
structure RegResult where
  slope : ℚ
  intercept : ℚ
  r2 : ℚ
deriving DecidableEq, Repr

/-- One month of the monthly climatology. -/
structure MonthClim where
  month : String
  avg : ℚ
  min : ℚ
  max : ℚ
deriving DecidableEq, Repr

instance : Inhabited MonthClim := ⟨⟨"", 0, 0, 0⟩⟩

/-- One nearby-station comparison entry. -/
structure NearbyEntry where
  name : String
  pctMedian : Option ℚ
deriving DecidableEq, Repr

/-- The aggregate analytics record (`StationAnalytics`). -/
structure StationAnalytics where
  waterYears : List WYSummary
  peakTrendSlope : ℚ
  peakTrendPct : ℚ
  peakTrendSignificant : Bool
  avgOnsetDOWY : ℤ
  currentOnsetDOWY : Option ℤ
  onsetTrendDays : ℚ
  avgMeltOutDOWY : ℤ
  meltOutTrendDays : ℚ
  avgSeasonLength : ℤ
  seasonLengthChange : ℚ
  currentRank : ℕ
  totalYears : ℕ
  belowMedianCount10yr : ℕ
  projectedPeak : Option ℚ
  monthlyClim : List MonthClim
  nearbyComparison : List NearbyEntry
  regionName : String
  regionAvgPct : ℤ
deriving DecidableEq, Repr

/-- The `MONTHS` constant. -/
def MONTHS : List String :=
  ["Jan", "Feb", "Mar", "Apr", "May", "Jun",
   "Jul", "Aug", "Sep", "Oct", "Nov", "Dec"]

/-- The `REGIONS` constant, as the insertion-ordered list of entries the
source iterates over with `Object.entries` (first match wins). -/
def REGIONS : List (String × List String) :=
  [("Sierra Nevada", ["CA", "NV"]),
   ("Rockies", ["CO", "WY", "MT", "ID", "UT"]),
   ("Cascades", ["WA", "OR"]),
   ("Northeast", ["VT", "NH", "ME", "NY"]),
   ("Southwest", ["AZ", "NM"])]

/-- Embeds `linearRegression` (App.tsx lines 183-199), verbatim over `ℚ`.
The indexed access `ys[i]` of the source is modelled by `zipWith`, which
agrees with it whenever the two arrays have equal length (the only way the
source calls it). -/
def linearRegression (xs ys : List ℚ) : RegResult :=
  let n := xs.length
  if n < 2 then ⟨0, 0, 0⟩ else
  let sumX := xs.sum
  let sumY := ys.sum
  let sumXX := (xs.map (fun x => x * x)).sum
  let sumXY := (List.zipWith (fun x y => x * y) xs ys).sum
  let denom : ℚ := n * sumXX - sumX * sumX
  if denom = 0 then ⟨0, sumY / n, 0⟩ else
  let slope := (n * sumXY - sumX * sumY) / denom
  let intercept := (sumY - slope * sumX) / n
  let meanY := sumY / n
  let ssRes := (List.zipWith (fun x y => (y - (slope * x + intercept)) ^ 2) xs ys).sum
  let ssTot := (ys.map (fun y => (y - meanY) ^ 2)).sum
  ⟨slope, intercept, if 0 < ssTot then 1 - ssRes / ssTot else 0⟩

/-- The observations with a non-`null` value (the `if (d.swe === null)
continue` guard of the grouping loop). -/
def validDays (por : List PORDay) : List PORDay :=
  por.filter (fun d => d.swe.isSome)

/-- The distinct water-year keys of `byWY`, in the ascending numeric order
in which `Object.entries` enumerates integer-like keys. -/
def wyKeys (por : List PORDay) : List ℤ :=
  (((validDays por).map (fun d => dateToWY d.date)).dedup).insertionSort (· ≤ ·)

/-- The group `byWY[wy]`: valid observations of water year `wy`, in input
order (JavaScript `push` preserves insertion order). -/
def groupWY (por : List PORDay) (wy : ℤ) : List PORDay :=
  (validDays por).filter (fun d => decide (dateToWY d.date = wy))

/-- Embeds `Object.entries(byWY)`. -/
def byWY (por : List PORDay) : List (ℤ × List PORDay) :=
  (wyKeys por).map (fun wy => (wy, groupWY por wy))

/-- The predicate `d.swe !== null && d.swe > 1` of the onset / melt-out
searches. -/
def sweAbove1 (d : PORDay) : Bool :=
  match d.swe with
  | some v => decide (1 < v)
  | none => false

/-- One iteration of the peak-search loop
(`if (d.swe !== null && d.swe > peakSWE) { peakSWE = d.swe; peakDate = d.date }`). -/
def peakStep (acc : ℚ × CalDate) (d : PORDay) : ℚ × CalDate :=
  match d.swe with
  | some v => if acc.1 < v then (v, d.date) else acc
  | none => acc

/-- Embeds `[...days].sort((a, b) => a.date.localeCompare(b.date))`. -/
def sortByDate (l : List PORDay) : List PORDay :=
  l.insertionSort (fun a b => a.date ≤ b.date)

instance : IsTotal PORDay (fun a b => a.date ≤ b.date) :=
  ⟨fun a b => le_total a.date b.date⟩

instance : IsTrans PORDay (fun a b => a.date ≤ b.date) :=
  ⟨fun _ _ _ h1 h2 => le_trans h1 h2⟩

/-- The body of the per-water-year `map` of the segmentation step
(App.tsx lines 222-241). -/
def mkSummary (wy : ℤ) (days : List PORDay) : WYSummary :=
  let sorted := sortByDate days
  let pk := sorted.foldl peakStep (0, sorted.headI.date)
  let onsetDate := (sorted.find? sweAbove1).map (fun d => d.date)
  let afterPeak := sorted.filter (fun d => decide (pk.2 ≤ d.date))
  let meltOutDate := (afterPeak.reverse.find? sweAbove1).map (fun d => d.date)
  let seasonDays : ℤ :=
    match onsetDate, meltOutDate with
    | some o, some m => (dayNumber m : ℤ) - (dayNumber o : ℤ)
    | _, _ => 0
  ⟨wy, pk.1, pk.2, onsetDate, meltOutDate, seasonDays⟩

/-- The `waterYears` array of `computeAnalytics` (App.tsx lines 220-243):
keep groups with more than 60 valid observations, summarise each, sort by
water year. -/
def waterYearsOf (por : List PORDay) : List WYSummary :=
  (((byWY por).filter (fun p => decide (60 < p.2.length))).map
      (fun p => mkSummary p.1 p.2)).insertionSort (fun a b => a.wy ≤ b.wy)

/-- Number of valid (non-missing) observations of water year `wy`. -/
def countValidObs (por : List PORDay) (wy : ℤ) : ℕ :=
  (groupWY por wy).length

/-- The valid values observed in water year `wy` (used in specification
statements). -/
def yearVals (por : List PORDay) (wy : ℤ) : List ℚ :=
  (groupWY por wy).filterMap (fun d => d.swe)

/-- The `peakYs` array. -/
def peakYsOf (por : List PORDay) : List ℚ :=
  (waterYearsOf por).map (fun w => w.peakSWE)

/-- The `peakReg` regression. -/
def peakRegOf (por : List PORDay) : RegResult :=
  linearRegression ((waterYearsOf por).map (fun w => (w.wy : ℚ))) (peakYsOf por)

/-- The `span` value (last minus first summarised water year, or 1). -/
def spanOf (por : List PORDay) : ℤ :=
  let wys := waterYearsOf por
  if 1 < wys.length then (wys.getLast?.getD default).wy - wys.headI.wy else 1

/-- The `peakTrendPct` value. -/
def peakTrendPctOf (por : List PORDay) : ℚ :=
  let peakYs := peakYsOf por
  let avgPeak : ℚ := if 0 < peakYs.length then peakYs.sum / peakYs.length else 1
  if 0 < avgPeak then (peakRegOf por).slope * (spanOf por) / avgPeak * 100 else 0

/-- The `onsetData` array: (water year, onset day-of-water-year) pairs. -/
def onsetDataOf (por : List PORDay) : List (ℤ × ℤ) :=
  (waterYearsOf por).filterMap (fun w => w.onsetDate.map (fun od => (w.wy, dateToDOWY od)))

/-- Slope of `onsetReg` (zero-trend fallback when six or fewer years). -/
def onsetRegSlopeOf (por : List PORDay) : ℚ :=
  let od := onsetDataOf por
  if 5 < od.length then
    (linearRegression (od.map (fun o => (o.1 : ℚ))) (od.map (fun o => (o.2 : ℚ)))).slope
  else 0

/-- The `avgOnsetDOWY` value. -/
def avgOnsetDOWYOf (por : List PORDay) : ℤ :=
  let od := onsetDataOf por
  if 0 < od.length then jsRound ((((od.map (fun o => o.2)).sum : ℤ) : ℚ) / od.length) else 0

/-- The `meltData` array. -/
def meltDataOf (por : List PORDay) : List (ℤ × ℤ) :=
  (waterYearsOf por).filterMap (fun w => w.meltOutDate.map (fun md => (w.wy, dateToDOWY md)))

/-- Slope of `meltReg`. -/
def meltRegSlopeOf (por : List PORDay) : ℚ :=
  let md := meltDataOf por
  if 5 < md.length then
    (linearRegression (md.map (fun m => (m.1 : ℚ))) (md.map (fun m => (m.2 : ℚ)))).slope
  else 0

/-- The `avgMeltOutDOWY` value. -/
def avgMeltOutDOWYOf (por : List PORDay) : ℤ :=
  let md := meltDataOf por
  if 0 < md.length then jsRound ((((md.map (fun m => m.2)).sum : ℤ) : ℚ) / md.length) else 0

/-- The `seasonsWithLength` array. -/
def seasonsWithLengthOf (por : List PORDay) : List WYSummary :=
  (waterYearsOf por).filter (fun w => decide (0 < w.seasonDays))

/-- The `avgSeasonLength` value. -/
def avgSeasonLengthOf (por : List PORDay) : ℤ :=
  let s := seasonsWithLengthOf por
  if 0 < s.length then jsRound ((((s.map (fun w => w.seasonDays)).sum : ℤ) : ℚ) / s.length)
  else 0

/-- Slope of `seasonReg`. -/
def seasonRegSlopeOf (por : List PORDay) : ℚ :=
  let s := seasonsWithLengthOf por
  if 5 < s.length then
    (linearRegression (s.map (fun w => (w.wy : ℚ))) (s.map (fun w => (w.seasonDays : ℚ)))).slope
  else 0

/-- The `historicalAtDOWY` pool before sorting: for each water-year group of `byWY`
(in ascending key order), the value of the first observation whose
day-of-water-year is within 3 days of today's, when that observation
exists and its value is non-`null`. -/
def histPool (todayDOWY : ℤ) (por : List PORDay) : List ℚ :=
  (byWY por).filterMap (fun p =>
    (p.2.find? (fun d => decide (|dateToDOWY d.date - todayDOWY| ≤ 3))).bind
      (fun d => d.swe))

/-- The `historicalAtDOWY` pool after the ascending numeric sort. -/
def histSorted (todayDOWY : ℤ) (por : List PORDay) : List ℚ :=
  (histPool todayDOWY por).insertionSort (· ≤ ·)

/-- Embeds `currentRank` (App.tsx line 284). -/
def currentRankOf (todayDOWY : ℤ) (por : List PORDay) (currentSWE : ℚ) : ℕ :=
  ((histSorted todayDOWY por).filter (fun v => decide (v < currentSWE))).length + 1

/-- The `medianPeak` value. -/
def medianPeakOf (por : List PORDay) : ℚ :=
  let peakYs := peakYsOf por
  if 0 < peakYs.length then (peakYs.insertionSort (· ≤ ·)).getD (peakYs.length / 2) 0
  else 0

/-- The `belowMedianCount10yr` value (over `waterYears.slice(-10)`). -/
def belowMedianCount10yrOf (por : List PORDay) : ℕ :=
  let wys := waterYearsOf por
  let recent10 := wys.drop (wys.length - 10)
  (recent10.filter (fun w => decide (w.peakSWE < medianPeakOf por))).length

/-- Embeds `projectedPeak` (App.tsx lines 291-305). -/
def projectedPeakOf (hydro : List HydroPoint) : Option ℚ :=
  if 5 < hydro.length then
    match hydro.getLast? with
    | some latest =>
      if truthy latest.median && truthy latest.swe && decide (0 < latest.median.getD 0) then
        let lm := latest.median.getD 0
        let ls := latest.swe.getD 0
        let meds := hydro.filterMap (fun h => h.median)
        match listMax meds with
        | some pm =>
          if lm < pm then some ((jsRound (ls / lm * pm * 10) : ℚ) / 10) else none
        | none => none
      else none
    | none => none
  else none

/-- The valid values of calendar month `mo` across the period of record
(`monthlyBuckets[mo]`). -/
def monthVals (por : List PORDay) (mo : ℕ) : List ℚ :=
  (por.filter (fun d => decide (d.date.month = mo))).filterMap (fun d => d.swe)

/-- The nine snow-season months `[9, 10, 11, 0, 1, 2, 3, 4, 5]`. -/
def SNOW_MONTHS : List ℕ := [9, 10, 11, 0, 1, 2, 3, 4, 5]

/-- Embeds `monthlyClim` (App.tsx lines 315-321); note the `Math.round(x*10)/10`
rounding the source applies to all three statistics. -/
def monthlyClimOf (por : List PORDay) : List MonthClim :=
  SNOW_MONTHS.map (fun mo =>
    let vals := monthVals por mo
    let avg : ℚ := if 0 < vals.length then vals.sum / vals.length else 0
    let mn : ℚ := (listMin vals).getD 0
    let mx : ℚ := (listMax vals).getD 0
    ⟨MONTHS.getD mo "",
     (jsRound (avg * 10) : ℚ) / 10,
     (jsRound (mn * 10) : ℚ) / 10,
     (jsRound (mx * 10) : ℚ) / 10⟩)

/-- Embeds `nearby` (App.tsx lines 324-332). -/
def nearbyOf (station : SnotelStation) (allStations : List SnotelStation) :
    List NearbyEntry :=
  let cand := allStations.filter (fun s =>
    decide (s.id ≠ station.id) && decide (|s.lat - station.lat| < 1) &&
    decide (|s.lon - station.lon| < 1) && s.pctMedian.isSome)
  let sorted := cand.insertionSort (fun a b =>
    |a.lat - station.lat| + |a.lon - station.lon| ≤
      |b.lat - station.lat| + |b.lon - station.lon|)
  (sorted.take 3).map (fun s => ⟨s.name, s.pctMedian⟩)

/-- The regional lookup and average (App.tsx lines 335-346): first matching
region of `REGIONS` wins; default label "Region" with average 0. -/
def regionOf (station : SnotelStation) (allStations : List SnotelStation) :
    String × ℤ :=
  match REGIONS.find? (fun p => p.2.contains station.state) with
  | some (nm, states) =>
    let regionStations := allStations.filter (fun s =>
      states.contains s.state && s.pctMedian.isSome)
    (nm,
     if 0 < regionStations.length then
       jsRound ((regionStations.map (fun s => s.pctMedian.getD 0)).sum /
         regionStations.length)
     else 0)
  | none => ("Region", 0)

/-- Embeds `computeAnalytics` (App.tsx lines 204-369).  The `today` argument
stands for the wall-clock date the source reads internally with
`new Date()` (in `waterYearDates()` for `wyYear` and via
`toISOString().slice(0, 10)` for `todayDOWY`). -/
def computeAnalytics (today : CalDate) (porData : List PORDay)
    (station : SnotelStation) (allStations : List SnotelStation)
    (currentWYHydro : List HydroPoint) : StationAnalytics :=
  let wyYear := wyStartYear today
  let todayDOWY := dateToDOWY today
  let wys := waterYearsOf porData
  let peakReg := peakRegOf porData
  { waterYears := wys
    peakTrendSlope := peakReg.slope * 10
    peakTrendPct := peakTrendPctOf porData
    peakTrendSignificant := decide (3/20 < peakReg.r2) && decide (10 < wys.length)
    avgOnsetDOWY := avgOnsetDOWYOf porData
    currentOnsetDOWY :=
      (wys.find? (fun w => decide (w.wy = wyYear))).bind
        (fun w => w.onsetDate.map dateToDOWY)
    onsetTrendDays := onsetRegSlopeOf porData * 10
    avgMeltOutDOWY := avgMeltOutDOWYOf porData
    meltOutTrendDays := meltRegSlopeOf porData * 10
    avgSeasonLength := avgSeasonLengthOf porData
    seasonLengthChange := seasonRegSlopeOf porData * (spanOf porData : ℚ)
    currentRank := currentRankOf todayDOWY porData (station.swe.getD 0)
    totalYears := (histSorted todayDOWY porData).length
    belowMedianCount10yr := belowMedianCount10yrOf porData
    projectedPeak := projectedPeakOf currentWYHydro
    monthlyClim := monthlyClimOf porData
    nearbyComparison := nearbyOf station allStations
    regionName := (regionOf station allStations).1
    regionAvgPct := (regionOf station allStations).2 }

/-! ### Concrete test inputs

Synthetic daily series used by the witness and counterexample theorems
below.  `mkExDate y i` is the `i`-th day (0-based) of the water year
starting Oct 1 of calendar year `y`, for `i < 61` (October has 31 days). -/

/-- Day `i` of the Oct-Nov window of year `y` (`i < 61`). -/
def mkExDate (y i : ℕ) : CalDate :=
  if i < 31 then ⟨y, 9, i + 1⟩ else ⟨y, 10, i - 30⟩

/-- Exactly 60 valid observations, all in water year 2000. -/
def ex60 : List PORDay := (List.range 60).map (fun i => ⟨mkExDate 1999 i, some 5⟩)

/-- 61 valid observations, every value negative. -/
def exNeg : List PORDay := (List.range 61).map (fun i => ⟨mkExDate 1999 i, some (-1)⟩)

/-- 61 valid observations: value 2 everywhere except 10 on day 30 (Oct 30). -/
def exW : List PORDay :=
  (List.range 61).map (fun i => ⟨mkExDate 1999 i, some (if i = 29 then 10 else 2)⟩)

/-- The single water-year summary the segmentation produces for `exW`. -/
def sExW : WYSummary :=
  ⟨2000, 10, ⟨1999, 9, 30⟩, some ⟨1999, 9, 1⟩, some ⟨1999, 10, 30⟩, 60⟩

/-- Three water years (2000-2002) with 61 valid observations each. -/
def por3 : List PORDay :=
  (((List.range 3).map (fun y =>
    (List.range 61).map (fun i => (⟨mkExDate (1999 + y) i, some 2⟩ : PORDay)))).flatten)

/-- Four October observations with values 1, 1, 1, 2 (exact mean 5/4). -/
def por4 : List PORDay :=
  [⟨⟨1999, 9, 1⟩, some 1⟩, ⟨⟨1999, 9, 2⟩, some 1⟩,
   ⟨⟨1999, 9, 3⟩, some 1⟩, ⟨⟨1999, 9, 4⟩, some 2⟩]

/-- A station snapshot with a current value of 2 inches. -/
def st0 : SnotelStation := ⟨"S1", "Test", "CO", 3000, 40, -105, some 2, some 100⟩

/-- A station snapshot whose current value exceeds every pooled value of
`exW`. -/
def stW : SnotelStation := ⟨"S1", "Test", "CO", 3000, 40, -105, some 20, some 100⟩

/-- Six hydrograph points: the latest has value 1 and median 3, earlier
points carry median 7, so the projection is `round((1/3)*7*10)/10`. -/
def exHydro : List HydroPoint :=
  [⟨⟨2025, 9, 1⟩, 1, some 1, some 7, none⟩,
   ⟨⟨2025, 9, 2⟩, 2, some 1, some 7, none⟩,
   ⟨⟨2025, 9, 3⟩, 3, some 1, some 7, none⟩,
   ⟨⟨2025, 9, 4⟩, 4, some 1, some 7, none⟩,
   ⟨⟨2025, 9, 5⟩, 5, some 1, some 7, none⟩,
   ⟨⟨2025, 9, 6⟩, 6, some 1, some 3, none⟩]

/-- Six hydrograph points whose latest entry has a zero value while all
earlier entries hold valid (value, median) pairs. -/
def exHydro0 : List HydroPoint :=
  [⟨⟨2025, 9, 1⟩, 1, some 4, some 7, none⟩,
   ⟨⟨2025, 9, 2⟩, 2, some 4, some 7, none⟩,
   ⟨⟨2025, 9, 3⟩, 3, some 4, some 7, none⟩,
   ⟨⟨2025, 9, 4⟩, 4, some 4, some 7, none⟩,
   ⟨⟨2025, 9, 5⟩, 5, some 4, some 7, none⟩,
   ⟨⟨2025, 9, 6⟩, 6, some 0, some 7, none⟩]

/-! ### Verification -/

set_option maxRecDepth 8000


section FoldOrder

variable {α : Type} [LinearOrder α]

theorem le_foldl_max (l : List α) (a : α) : a ≤ l.foldl max a := by
  induction l generalizing a with
  | nil => exact le_rfl
  | cons b t ih => exact le_trans (le_max_left a b) (ih (max a b))

theorem mem_le_foldl_max {l : List α} {b : α} (h : b ∈ l) (a : α) :
    b ≤ l.foldl max a := by
  induction l generalizing a with
  | nil => cases h
  | cons c t ih =>
    rcases List.mem_cons.mp h with rfl | h2
    · exact le_trans (le_max_right a b) (le_foldl_max t _)
    · exact ih h2 _

theorem foldl_max_le {l : List α} {a x : α} (ha : a ≤ x)
    (h : ∀ y ∈ l, y ≤ x) : l.foldl max a ≤ x := by
  induction l generalizing a with
  | nil => exact ha
  | cons b t ih =>
    exact ih (max_le ha (h b (List.mem_cons_self b t)))
      (fun y hy => h y (List.mem_cons_of_mem b hy))

theorem foldl_min_le_init (l : List α) (a : α) : l.foldl min a ≤ a := by
  induction l generalizing a with
  | nil => exact le_rfl
  | cons b t ih => exact le_trans (ih (min a b)) (min_le_left a b)

theorem foldl_min_le_mem {l : List α} {b : α} (h : b ∈ l) (a : α) :
    l.foldl min a ≤ b := by
  induction l generalizing a with
  | nil => cases h
  | cons c t ih =>
    rcases List.mem_cons.mp h with rfl | h2
    · exact le_trans (foldl_min_le_init t _) (min_le_right a b)
    · exact ih h2 _

theorem le_foldl_min {l : List α} {a x : α} (ha : x ≤ a)
    (h : ∀ y ∈ l, x ≤ y) : x ≤ l.foldl min a := by
  induction l generalizing a with
  | nil => exact ha
  | cons b t ih =>
    exact ih (le_min ha (h b (List.mem_cons_self b t)))
      (fun y hy => h y (List.mem_cons_of_mem b hy))

end FoldOrder

/-- Characterisation of `listMax`: an element that bounds the list from
above is its maximum. -/
theorem listMax_eq_of {l : List ℚ} {x : ℚ} (hm : x ∈ l)
    (hub : ∀ y ∈ l, y ≤ x) : listMax l = some x := by
  cases l with
  | nil => cases hm
  | cons a t =>
    have h1 : t.foldl max a ≤ x :=
      foldl_max_le (hub a (List.mem_cons_self a t))
        (fun y hy => hub y (List.mem_cons_of_mem a hy))
    have h2 : x ≤ t.foldl max a := by
      rcases List.mem_cons.mp hm with rfl | h3
      · exact le_foldl_max t x
      · exact mem_le_foldl_max h3 a
    simp [listMax, le_antisymm h1 h2]

/-- Characterisation of `listMinDate`: an element that bounds the list from
below is its minimum. -/
theorem listMinDate_eq_of {l : List CalDate} {x : CalDate} (hm : x ∈ l)
    (hlb : ∀ y ∈ l, x ≤ y) : listMinDate l = some x := by
  cases l with
  | nil => cases hm
  | cons a t =>
    have h1 : x ≤ t.foldl min a :=
      le_foldl_min (hlb a (List.mem_cons_self a t))
        (fun y hy => hlb y (List.mem_cons_of_mem a hy))
    have h2 : t.foldl min a ≤ x := by
      rcases List.mem_cons.mp hm with rfl | h3
      · exact foldl_min_le_init t x
      · exact foldl_min_le_mem h3 a
    simp [listMinDate, le_antisymm h2 h1]

/-- The running maximum of the peak-search loop is the fold of `max` over
the non-missing values. -/
theorem peakFold_fst (l : List PORDay) (p : ℚ) (pd : CalDate) :
    (l.foldl peakStep (p, pd)).1 = (l.filterMap (fun d => d.swe)).foldl max p := by
  induction l generalizing p pd with
  | nil => rfl
  | cons d t ih =>
    cases hs : d.swe with
    | none =>
      simp only [List.foldl_cons, peakStep, hs, List.filterMap_cons]
      exact ih p pd
    | some v =>
      by_cases hv : p < v
      · simp only [List.foldl_cons, peakStep, hs, if_pos hv, List.filterMap_cons]
        rw [ih v d.date, max_eq_right (le_of_lt hv)]
      · simp only [List.foldl_cons, peakStep, hs, if_neg hv, List.filterMap_cons]
        rw [ih p pd, max_eq_left (not_lt.mp hv)]

/-- If no value beats the accumulator, the peak date never changes. -/
theorem peakFold_snd_of_le (l : List PORDay) (p : ℚ) (pd : CalDate)
    (h : ∀ v ∈ l.filterMap (fun d => d.swe), v ≤ p) :
    (l.foldl peakStep (p, pd)).2 = pd := by
  induction l generalizing pd with
  | nil => rfl
  | cons d t ih =>
    cases hs : d.swe with
    | none =>
      simp only [List.foldl_cons, peakStep, hs]
      exact ih pd (fun v hv => h v (by simp [List.filterMap_cons, hs, hv]))
    | some v =>
      have hvp : v ≤ p := h v (by simp [List.filterMap_cons, hs])
      simp only [List.foldl_cons, peakStep, hs, if_neg (not_lt.mpr hvp)]
      exact ih pd (fun w hw => h w (by simp [List.filterMap_cons, hs, hw]))

/-- When some value beats the accumulator, the final peak date is the date
of the first observation carrying the overall maximum. -/
theorem peakFold_snd_argmax (l : List PORDay) (p : ℚ) (pd : CalDate) (M : ℚ)
    (hM : M = (l.filterMap (fun d => d.swe)).foldl max p) (h : p < M) :
    (l.find? (fun d => decide (d.swe = some M))).map (fun d => d.date) =
      some (l.foldl peakStep (p, pd)).2 := by
  induction l generalizing p pd with
  | nil => rw [hM] at h; exact absurd h (lt_irrefl p)
  | cons d t ih =>
    cases hs : d.swe with
    | none =>
      have hM2 : M = (t.filterMap (fun d => d.swe)).foldl max p := by
        rw [hM]; simp [List.filterMap_cons, hs]
      rw [List.find?_cons_of_neg _ (by simp [hs])]
      simp only [List.foldl_cons, peakStep, hs]
      exact ih p pd hM2 h
    | some v =>
      have hM2 : M = (t.filterMap (fun d => d.swe)).foldl max (max p v) := by
        rw [hM]; simp [List.filterMap_cons, hs]
      by_cases hv : p < v
      · by_cases hvm : v = M
        · rw [List.find?_cons_of_pos _ (by simp [hs, hvm])]
          simp only [List.foldl_cons, peakStep, hs, if_pos hv, Option.map_some]
          have hub : ∀ w ∈ t.filterMap (fun d => d.swe), w ≤ v := by
            intro w hw
            have : w ≤ (t.filterMap (fun d => d.swe)).foldl max (max p v) :=
              mem_le_foldl_max hw _
            rw [← hM2, ← hvm] at this
            exact this
          rw [peakFold_snd_of_le t v d.date hub]
          rfl
        · rw [List.find?_cons_of_neg _ (by simp [hs, hvm])]
          simp only [List.foldl_cons, peakStep, hs, if_pos hv]
          have hM3 : M = (t.filterMap (fun d => d.swe)).foldl max v := by
            rw [hM2, max_eq_right (le_of_lt hv)]
          have hvM : v < M := by
            have hle : v ≤ (t.filterMap (fun d => d.swe)).foldl max v := le_foldl_max _ v
            rw [← hM3] at hle
            rcases lt_or_eq_of_le hle with h2 | h2
            · exact h2
            · exact absurd h2 hvm
          exact ih v d.date hM3 hvM
      · have hvM : v ≠ M := by
          intro hEq
          exact hv (hEq ▸ h)
        rw [List.find?_cons_of_neg _ (by simp [hs, hvM])]
        simp only [List.foldl_cons, peakStep, hs, if_neg hv]
        have hM3 : M = (t.filterMap (fun d => d.swe)).foldl max p := by
          rw [hM2, max_eq_left (not_lt.mp hv)]
        exact ih p pd hM3 h

/-- In a date-sorted list, the first element `find?` locates is no later
than any element satisfying the predicate. -/
theorem find?_first_le {l : List PORDay}
    (hs : List.Sorted (fun a b : PORDay => a.date ≤ b.date) l)
    {p : PORDay → Bool} {a b : PORDay} (hf : l.find? p = some a)
    (hb : b ∈ l) (hpb : p b = true) : a.date ≤ b.date := by
  induction l with
  | nil => cases hb
  | cons c t ih =>
    by_cases hpc : p c = true
    · rw [List.find?_cons_of_pos _ hpc] at hf
      obtain rfl : c = a := by injection hf
      rcases List.mem_cons.mp hb with rfl | hbt
      · exact le_refl _
      · exact List.rel_of_sorted_cons hs b hbt
    · rw [List.find?_cons_of_neg _ (by simpa using hpc)] at hf
      rcases List.mem_cons.mp hb with rfl | hbt
      · exact absurd hpb hpc
      · exact ih hs.of_cons hf hbt

/-- Sorting by `sortByDate` yields a date-sorted list. -/
theorem sorted_sortByDate (l : List PORDay) :
    List.Sorted (fun a b : PORDay => a.date ≤ b.date) (sortByDate l) :=
  List.sorted_insertionSort _ l

/-- Sorting by `sortByDate` permutes the input. -/
theorem perm_sortByDate (l : List PORDay) : List.Perm (sortByDate l) l :=
  List.perm_insertionSort _ l

/-- Membership in the produced water-year summaries decomposes into a
qualifying group. -/
theorem mem_waterYearsOf {por : List PORDay} {s : WYSummary}
    (h : s ∈ waterYearsOf por) :
    ∃ k, 60 < (groupWY por k).length ∧ s = mkSummary k (groupWY por k) := by
  unfold waterYearsOf at h
  rw [(List.perm_insertionSort _ _).mem_iff] at h
  obtain ⟨pr, hpr, hmk⟩ := List.mem_map.mp h
  obtain ⟨hby, hlen⟩ := List.mem_filter.mp hpr
  obtain ⟨k, hk, hpair⟩ := List.mem_map.mp hby
  refine ⟨k, ?_, ?_⟩
  · have : decide (60 < pr.2.length) = true := hlen
    rw [← hpair] at this
    simpa using this
  · rw [← hmk, ← hpair]

/-- The summary of `mkSummary` is labelled with its group key. -/
theorem mkSummary_wy (k : ℤ) (g : List PORDay) : (mkSummary k g).wy = k := rfl

/-- Every observation of a water-year group has a non-missing value. -/
theorem mem_groupWY_isSome {por : List PORDay} {k : ℤ} {d : PORDay}
    (h : d ∈ groupWY por k) : d.swe.isSome := by
  unfold groupWY validDays at h
  have := (List.mem_filter.mp h).1
  exact (List.mem_filter.mp this).2

/-- Helper: the values of the sorted group permute those of the group. -/
theorem perm_vals (g : List PORDay) :
    List.Perm ((sortByDate g).filterMap (fun d => d.swe)) (g.filterMap (fun d => d.swe)) :=
  (perm_sortByDate g).filterMap _

/-- C2 (amended): for every produced `WaterYearSummary`, provided the
year's valid values are all nonnegative (as physical SWE readings are),
`peakSWE` is the maximum of the year's observed values and `peakDate` is
the earliest date on which that maximum occurs.  (Without the
nonnegativity proviso the zero-initialised peak search can report a
`peakSWE` of 0 that occurs nowhere in the data, see the counterexample.) -/
theorem c2_peak_statistics (por : List PORDay) (s : WYSummary)
    (hmem : s ∈ waterYearsOf por)
    (hnn : ∀ v ∈ yearVals por s.wy, 0 ≤ v) :
    listMax (yearVals por s.wy) = some s.peakSWE ∧
    listMinDate (((groupWY por s.wy).filter
        (fun d => decide (d.swe = some s.peakSWE))).map (fun d => d.date)) =
      some s.peakDate := by
  obtain ⟨k, hlen, hs⟩ := mem_waterYearsOf hmem
  subst hs
  rw [mkSummary_wy] at hnn ⊢
  have hyv : yearVals por k = (groupWY por k).filterMap (fun d => d.swe) := rfl
  have hvperm := perm_vals (groupWY por k)
  have hnn2 : ∀ v ∈ (sortByDate (groupWY por k)).filterMap (fun d => d.swe), 0 ≤ v := by
    intro v hv
    exact hnn v (hvperm.mem_iff.mp hv)
  have hpk : (mkSummary k (groupWY por k)).peakSWE =
      ((sortByDate (groupWY por k)).filterMap (fun d => d.swe)).foldl max 0 :=
    peakFold_fst (sortByDate (groupWY por k)) 0 (sortByDate (groupWY por k)).headI.date
  have hub : ∀ y ∈ (groupWY por k).filterMap (fun d => d.swe),
      y ≤ ((sortByDate (groupWY por k)).filterMap (fun d => d.swe)).foldl max 0 := by
    intro y hy
    exact mem_le_foldl_max (hvperm.mem_iff.mpr hy) 0
  have hM0 : 0 ≤ ((sortByDate (groupWY por k)).filterMap (fun d => d.swe)).foldl max 0 :=
    le_foldl_max _ 0
  rw [hyv, hpk]
  by_cases hMpos : 0 < ((sortByDate (groupWY por k)).filterMap (fun d => d.swe)).foldl max 0
  · -- positive maximum: the peak fold found a genuine argmax
    have harg := peakFold_snd_argmax (sortByDate (groupWY por k)) 0
      (sortByDate (groupWY por k)).headI.date _ rfl hMpos
    obtain ⟨d0, hfind, hd0date⟩ := Option.map_eq_some'.mp harg
    have hd0mem : d0 ∈ sortByDate (groupWY por k) := List.mem_of_find?_eq_some hfind
    have hp0 := List.find?_some hfind
    have hd0swe : d0.swe =
        some (((sortByDate (groupWY por k)).filterMap (fun d => d.swe)).foldl max 0) :=
      of_decide_eq_true hp0
    have hMmem : ((sortByDate (groupWY por k)).filterMap (fun d => d.swe)).foldl max 0 ∈
        (groupWY por k).filterMap (fun d => d.swe) :=
      hvperm.mem_iff.mp (List.mem_filterMap.mpr ⟨d0, hd0mem, hd0swe⟩)
    refine ⟨listMax_eq_of hMmem hub, ?_⟩
    have hpd : (mkSummary k (groupWY por k)).peakDate = d0.date := hd0date.symm
    rw [hpd]
    have hfperm := (perm_sortByDate (groupWY por k)).filter
      (fun d => decide (d.swe =
        some (((sortByDate (groupWY por k)).filterMap (fun d => d.swe)).foldl max 0)))
    apply listMinDate_eq_of
    · exact List.mem_map_of_mem (fun d => d.date)
        (hfperm.mem_iff.mp (List.mem_filter.mpr ⟨hd0mem, decide_eq_true hd0swe⟩))
    · intro y hy
      obtain ⟨d1, hd1, rfl⟩ := List.mem_map.mp hy
      have hd1s := hfperm.mem_iff.mpr hd1
      obtain ⟨hd1mem, hd1pred⟩ := List.mem_filter.mp hd1s
      exact find?_first_le (sorted_sortByDate (groupWY por k)) hfind hd1mem hd1pred
  · -- maximum 0: all values are 0 and the peak date is the earliest date
    have hMz : ((sortByDate (groupWY por k)).filterMap (fun d => d.swe)).foldl max 0 = 0 :=
      le_antisymm (not_lt.mp hMpos) hM0
    have hallz : ∀ v ∈ (sortByDate (groupWY por k)).filterMap (fun d => d.swe), v = 0 := by
      intro v hv
      exact le_antisymm (hMz ▸ mem_le_foldl_max hv 0) (hnn2 v hv)
    have hpd2 : (mkSummary k (groupWY por k)).peakDate =
        (sortByDate (groupWY por k)).headI.date :=
      peakFold_snd_of_le (sortByDate (groupWY por k)) 0 _
        (fun v hv => le_of_eq (hallz v hv))
    have hglen : 0 < (groupWY por k).length := lt_trans (by norm_num) hlen
    have hslen : 0 < (sortByDate (groupWY por k)).length := by
      rw [(perm_sortByDate (groupWY por k)).length_eq]
      exact hglen
    obtain ⟨h0, t0, hsd⟩ := List.exists_cons_of_ne_nil (List.length_pos.mp hslen)
    have hh0mem : h0 ∈ sortByDate (groupWY por k) := by
      rw [hsd]; exact List.mem_cons_self h0 t0
    have hh0g : h0 ∈ groupWY por k := (perm_sortByDate (groupWY por k)).mem_iff.mp hh0mem
    obtain ⟨v0, hv0⟩ := Option.isSome_iff_exists.mp (mem_groupWY_isSome hh0g)
    have hv0mem : v0 ∈ (sortByDate (groupWY por k)).filterMap (fun d => d.swe) :=
      List.mem_filterMap.mpr ⟨h0, hh0mem, hv0⟩
    have hv0z : v0 = 0 := hallz v0 hv0mem
    have hh0swe : h0.swe = some 0 := by rw [hv0, hv0z]
    have hMmem2 : ((sortByDate (groupWY por k)).filterMap (fun d => d.swe)).foldl max 0 ∈
        (groupWY por k).filterMap (fun d => d.swe) := by
      rw [hMz]
      exact hvperm.mem_iff.mp (hv0z ▸ hv0mem)
    refine ⟨listMax_eq_of hMmem2 hub, ?_⟩
    have hhead : (sortByDate (groupWY por k)).headI = h0 := by rw [hsd]; rfl
    rw [hpd2, hhead]
    have hfperm2 := (perm_sortByDate (groupWY por k)).filter
      (fun d => decide (d.swe =
        some (((sortByDate (groupWY por k)).filterMap (fun d => d.swe)).foldl max 0)))
    apply listMinDate_eq_of
    · refine List.mem_map_of_mem (fun d => d.date) (hfperm2.mem_iff.mp ?_)
      refine List.mem_filter.mpr ⟨hh0mem, decide_eq_true ?_⟩
      rw [hh0swe, hMz]
    · intro y hy
      obtain ⟨d1, hd1, rfl⟩ := List.mem_map.mp hy
      have hd1s := hfperm2.mem_iff.mpr hd1
      have hd1mem := (List.mem_filter.mp hd1s).1
      rw [hsd] at hd1mem
      rcases List.mem_cons.mp hd1mem with rfl | hd1t
      · exact le_refl _
      · exact List.rel_of_sorted_cons (hsd ▸ sorted_sortByDate (groupWY por k)) d1 hd1t

/-- The predicate `sweAbove1` holds exactly on non-missing values above 1. -/
theorem sweAbove1_iff (d : PORDay) :
    sweAbove1 d = true ↔ ∃ v, d.swe = some v ∧ 1 < v := by
  cases hs : d.swe <;> simp [sweAbove1, hs]

/-- C3 (confirmed): for every produced `WaterYearSummary`, an onset date,
when present, is at or before the peak date, and a melt-out date, when
present, is at or after the peak date; hence when both are present,
`onsetDate ≤ peakDate ≤ meltOutDate`. -/
theorem c3_onset_peak_meltout_ordering (por : List PORDay) (s : WYSummary)
    (hmem : s ∈ waterYearsOf por) :
    (∀ o, s.onsetDate = some o → o ≤ s.peakDate) ∧
    (∀ m, s.meltOutDate = some m → s.peakDate ≤ m) := by
  obtain ⟨k, hlen, hs⟩ := mem_waterYearsOf hmem
  subst hs
  constructor
  · intro o ho
    obtain ⟨d1, hfind1, hd1date⟩ := Option.map_eq_some'.mp
      (show ((sortByDate (groupWY por k)).find? sweAbove1).map (fun d => d.date) =
        some o from ho)
    obtain ⟨v1, hv1some, hv1gt⟩ := (sweAbove1_iff d1).mp (List.find?_some hfind1)
    have hd1mem : d1 ∈ sortByDate (groupWY por k) := List.mem_of_find?_eq_some hfind1
    have hv1mem : v1 ∈ (sortByDate (groupWY por k)).filterMap (fun d => d.swe) :=
      List.mem_filterMap.mpr ⟨d1, hd1mem, hv1some⟩
    have hM1 : 1 < ((sortByDate (groupWY por k)).filterMap (fun d => d.swe)).foldl max 0 :=
      lt_of_lt_of_le hv1gt (mem_le_foldl_max hv1mem 0)
    have hMpos : 0 < ((sortByDate (groupWY por k)).filterMap (fun d => d.swe)).foldl max 0 :=
      lt_trans zero_lt_one hM1
    have harg := peakFold_snd_argmax (sortByDate (groupWY por k)) 0
      (sortByDate (groupWY por k)).headI.date _ rfl hMpos
    obtain ⟨d0, hfind0, hd0date⟩ := Option.map_eq_some'.mp harg
    have hp0 := List.find?_some hfind0
    have hd0swe : d0.swe =
        some (((sortByDate (groupWY por k)).filterMap (fun d => d.swe)).foldl max 0) :=
      of_decide_eq_true hp0
    have hd0mem := List.mem_of_find?_eq_some hfind0
    have habove : sweAbove1 d0 = true := (sweAbove1_iff d0).mpr ⟨_, hd0swe, hM1⟩
    have hfl := find?_first_le (sorted_sortByDate (groupWY por k)) hfind1 hd0mem habove
    have hpd : (mkSummary k (groupWY por k)).peakDate = d0.date := hd0date.symm
    rw [← hd1date, hpd]
    exact hfl
  · intro m hm
    obtain ⟨d2, hfind2, hd2date⟩ := Option.map_eq_some'.mp
      (show (((sortByDate (groupWY por k)).filter
          (fun d => decide ((mkSummary k (groupWY por k)).peakDate ≤ d.date))).reverse.find?
          sweAbove1).map (fun d => d.date) = some m from hm)
    have hd2mem := List.mem_of_find?_eq_some hfind2
    rw [List.mem_reverse] at hd2mem
    have hpred := (List.mem_filter.mp hd2mem).2
    have hle : (mkSummary k (groupWY por k)).peakDate ≤ d2.date := of_decide_eq_true hpred
    rw [← hd2date]
    exact hle

theorem countP_key (l : List ℤ) (q : ℤ → Bool) (a : ℤ) :
    l.countP (fun k => decide (k = a) && q k) = if q a = true then l.count a else 0 := by
  induction l with
  | nil => simp
  | cons b t ih =>
    by_cases hb : b = a
    · subst hb
      by_cases hq : q b = true
      · simp [List.countP_cons, List.count_cons, hq, ih]
      · simp [List.countP_cons, List.count_cons, hq, ih]
    · by_cases hq : q a = true
      · simp [List.countP_cons, List.count_cons, hb, hq, ih, Ne.symm hb]
      · simp [List.countP_cons, List.count_cons, hb, hq, ih]

theorem nodup_wyKeys (por : List PORDay) : (wyKeys por).Nodup :=
  (List.perm_insertionSort _ _).nodup_iff.mpr (List.nodup_dedup _)

theorem mem_wyKeys_of {por : List PORDay} {wy : ℤ}
    (h : 0 < (groupWY por wy).length) : wy ∈ wyKeys por := by
  obtain ⟨d, hd⟩ := List.exists_mem_of_ne_nil _ (List.length_pos.mp h)
  have hd2 := List.mem_filter.mp hd
  unfold wyKeys
  rw [(List.perm_insertionSort _ _).mem_iff, List.mem_dedup]
  exact List.mem_map.mpr ⟨d, hd2.1, of_decide_eq_true hd2.2⟩

/-- C1 (amended): the segmentation produces a `WaterYearSummary` for a
water year if and only if that year has *more than 60* (i.e. at least 61)
valid observations, and then exactly one; a year with 59 or with exactly
60 valid observations produces none.  Stated as: the number of summaries
labelled `wy` is 1 exactly when the year has more than 60 valid
observations, else 0. -/
theorem c1_segmentation_threshold (por : List PORDay) (wy : ℤ) :
    (waterYearsOf por).countP (fun s => decide (s.wy = wy)) =
      if 60 < countValidObs por wy then 1 else 0 := by
  unfold waterYearsOf
  rw [(List.perm_insertionSort _ _).countP_eq, List.countP_map, List.countP_filter]
  unfold byWY
  rw [List.countP_map]
  simp only [Function.comp_def, mkSummary_wy]
  rw [countP_key (wyKeys por) (fun k => decide (60 < (groupWY por k).length)) wy]
  by_cases h : 60 < countValidObs por wy
  · have hd : decide (60 < (groupWY por wy).length) = true := decide_eq_true h
    rw [if_pos hd, if_pos h]
    exact List.count_eq_one_of_mem (nodup_wyKeys por)
      (mem_wyKeys_of (lt_trans (by norm_num) h))
  · have hd : decide (60 < (groupWY por wy).length) = false := decide_eq_false h
    rw [if_neg (by simp [hd]), if_neg h]

/-- C4 (confirmed): `currentRank` equals 1 plus the number of pooled
(±3-day) historical values strictly below the current value; a current
value at or below every pooled value ranks 1; a current value above every
pooled value ranks `totalYears + 1`; and a missing current station value
is ranked as if it were 0. -/
theorem c4_current_rank (today : CalDate) (por : List PORDay) (st : SnotelStation)
    (all : List SnotelStation) (hy : List HydroPoint) :
    (computeAnalytics today por st all hy).currentRank =
      ((histPool (dateToDOWY today) por).filter
        (fun v => decide (v < st.swe.getD 0))).length + 1 ∧
    ((∀ v ∈ histPool (dateToDOWY today) por, v < st.swe.getD 0) →
      (computeAnalytics today por st all hy).currentRank =
        (computeAnalytics today por st all hy).totalYears + 1) ∧
    ((∀ v ∈ histPool (dateToDOWY today) por, st.swe.getD 0 ≤ v) →
      (computeAnalytics today por st all hy).currentRank = 1) ∧
    (st.swe = none →
      (computeAnalytics today por st all hy).currentRank =
        currentRankOf (dateToDOWY today) por 0) := by
  have hrank : (computeAnalytics today por st all hy).currentRank =
      currentRankOf (dateToDOWY today) por (st.swe.getD 0) := rfl
  have htot : (computeAnalytics today por st all hy).totalYears =
      (histSorted (dateToDOWY today) por).length := rfl
  have hperm : List.Perm (histSorted (dateToDOWY today) por)
      (histPool (dateToDOWY today) por) := List.perm_insertionSort _ _
  refine ⟨?_, ?_, ?_, ?_⟩
  · rw [hrank]
    unfold currentRankOf
    rw [(hperm.filter _).length_eq]
  · intro hall
    rw [hrank, htot]
    unfold currentRankOf
    congr 1
    rw [List.filter_eq_self.mpr]
    intro v hv
    exact decide_eq_true (hall v (hperm.mem_iff.mp hv))
  · intro hall
    rw [hrank]
    unfold currentRankOf
    have hnil : (histSorted (dateToDOWY today) por).filter
        (fun v => decide (v < st.swe.getD 0)) = [] :=
      List.filter_eq_nil_iff.mpr (fun v hv => by
        simp only [decide_eq_true_eq, not_lt]
        exact hall v (hperm.mem_iff.mp hv))
    rw [hnil]
    rfl
  · intro hn
    rw [hrank, hn]
    rfl

/-- C6 (confirmed): for equal-length inputs, the regression returns the
all-zero record when `n < 2`; returns slope 0, intercept `mean(ys)` and
rSquared 0 when all xs are identical (zero denominator); and returns
rSquared 0 whenever ys is constant. -/
theorem c6_regression_degeneracies (xs ys : List ℚ) (hlen : xs.length = ys.length) :
    (xs.length < 2 → linearRegression xs ys = ⟨0, 0, 0⟩) ∧
    (∀ c, 2 ≤ xs.length → (∀ x ∈ xs, x = c) →
      linearRegression xs ys = ⟨0, ys.sum / xs.length, 0⟩) ∧
    (∀ c, (∀ y ∈ ys, y = c) → (linearRegression xs ys).r2 = 0) := by
  refine ⟨?_, ?_, ?_⟩
  · intro h
    unfold linearRegression
    rw [if_pos h]
  · intro c h2 hc
    have hsx : xs.sum = (xs.length : ℚ) * c := by
      rw [List.sum_eq_card_nsmul xs c hc, nsmul_eq_mul]
    have hsxx : (xs.map (fun x => x * x)).sum = (xs.length : ℚ) * (c * c) := by
      rw [List.sum_eq_card_nsmul (xs.map (fun x => x * x)) (c * c)
        (fun z hz => by obtain ⟨x, hx, rfl⟩ := List.mem_map.mp hz; rw [hc x hx]),
        List.length_map, nsmul_eq_mul]
    have hden : (xs.length : ℚ) * (xs.map (fun x => x * x)).sum - xs.sum * xs.sum = 0 := by
      rw [hsx, hsxx]; ring
    unfold linearRegression
    rw [if_neg (by omega : ¬ xs.length < 2), if_pos hden]
  · intro c hc
    unfold linearRegression
    by_cases h1 : xs.length < 2
    · rw [if_pos h1]
    · rw [if_neg h1]
      by_cases h2 : (xs.length : ℚ) * (xs.map (fun x => x * x)).sum - xs.sum * xs.sum = 0
      · rw [if_pos h2]
      · rw [if_neg h2]
        have hn0 : (xs.length : ℚ) ≠ 0 := Nat.cast_ne_zero.mpr (by omega)
        have hmean : ys.sum / (xs.length : ℚ) = c := by
          rw [List.sum_eq_card_nsmul ys c hc, nsmul_eq_mul, ← hlen]
          field_simp
        have htot : (ys.map (fun y => (y - ys.sum / (xs.length : ℚ)) ^ 2)).sum = 0 := by
          apply List.sum_eq_zero
          intro z hz
          obtain ⟨y, hy, rfl⟩ := List.mem_map.mp hz
          rw [hc y hy, hmean]
          ring
        simp only [htot, lt_irrefl, if_false]

/-- C7 (confirmed): the peak-value trend is flagged significant exactly
when the regression rSquared exceeds 0.15 and the number of summarised
water years exceeds 10; consequently any station with at most 10
summarised years (for example only 3) yields `significant = false`
regardless of the slope. -/
theorem c7_significance_heuristic (today : CalDate) (por : List PORDay) (st : SnotelStation)
    (all : List SnotelStation) (hy : List HydroPoint) :
    ((computeAnalytics today por st all hy).peakTrendSignificant = true ↔
      3/20 < (peakRegOf por).r2 ∧ 10 < (waterYearsOf por).length) ∧
    ((waterYearsOf por).length ≤ 10 →
      (computeAnalytics today por st all hy).peakTrendSignificant = false) := by
  have hsig : (computeAnalytics today por st all hy).peakTrendSignificant =
      (decide (3/20 < (peakRegOf por).r2) && decide (10 < (waterYearsOf por).length)) := rfl
  constructor
  · rw [hsig]
    simp [Bool.and_eq_true, decide_eq_true_eq]
  · intro hle
    have hd : decide (10 < (waterYearsOf por).length) = false :=
      decide_eq_false (by omega)
    rw [hsig, hd, Bool.and_false]

/-- C8 (amended): the analytics computation is a deterministic function
of its four data inputs *and the wall-clock date it reads internally*
(the source calls `new Date()` inside `computeAnalytics`; the date is not
an injected parameter).  It depends on that date only through the derived
day-of-water-year and water-year start, so two runs whose wall-clock dates
agree on those values produce identical `StationAnalytics`. -/
theorem c8_clock_determinism (t t' : CalDate) (por : List PORDay) (st : SnotelStation)
    (all : List SnotelStation) (hy : List HydroPoint)
    (h1 : dateToDOWY t = dateToDOWY t') (h2 : wyStartYear t = wyStartYear t') :
    computeAnalytics t por st all hy = computeAnalytics t' por st all hy := by
  unfold computeAnalytics
  rw [h1, h2]

theorem tenth_den (k : ℤ) : (((k : ℚ) / 10) * 10).den = 1 := by
  rw [div_mul_cancel₀]
  · exact Rat.den_intCast k
  · norm_num

theorem projectedPeakOf_tenth {hydro : List HydroPoint} {q : ℚ}
    (h : projectedPeakOf hydro = some q) : (q * 10).den = 1 := by
  unfold projectedPeakOf at h
  split at h
  · split at h
    · split at h
      · dsimp only at h
        split at h
        · split at h
          · obtain rfl : (jsRound _ : ℚ) / 10 = q := by injection h
            exact tenth_den _
          · exact absurd h (by simp)
        · exact absurd h (by simp)
      · exact absurd h (by simp)
    · exact absurd h (by simp)
  · exact absurd h (by simp)

/-- C9 (amended): rounding is applied *inside* the core computation, not
only at the presentation boundary: every monthly-climatology `avg`, `min`
and `max`, and any non-null `projectedPeak`, is already rounded to one
decimal place (times 10 it is an integer), contrary to the original
claim that these fields are returned unrounded. -/
theorem c9_internal_rounding (today : CalDate) (por : List PORDay) (st : SnotelStation)
    (all : List SnotelStation) (hy : List HydroPoint) :
    (∀ e ∈ (computeAnalytics today por st all hy).monthlyClim,
      (e.avg * 10).den = 1 ∧ (e.min * 10).den = 1 ∧ (e.max * 10).den = 1) ∧
    (∀ q, (computeAnalytics today por st all hy).projectedPeak = some q →
      (q * 10).den = 1) := by
  constructor
  · intro e he
    have hmc : (computeAnalytics today por st all hy).monthlyClim =
        monthlyClimOf por := rfl
    rw [hmc] at he
    unfold monthlyClimOf at he
    obtain ⟨mo, hmo, rfl⟩ := List.mem_map.mp he
    exact ⟨tenth_den _, tenth_den _, tenth_den _⟩
  · intro q hq
    exact projectedPeakOf_tenth hq

/-- Helper: the positive path of the peak projection, including the
one-decimal rounding the source applies. -/
theorem projectedPeakOf_pos (hydro : List HydroPoint) (latest : HydroPoint)
    (lm ls pm : ℚ) (hlen : 5 < hydro.length) (hlast : hydro.getLast? = some latest)
    (hmed : latest.median = some lm) (hlm : 0 < lm) (hswe : latest.swe = some ls)
    (hls : ls ≠ 0) (hmax : listMax (hydro.filterMap (fun h => h.median)) = some pm) :
    projectedPeakOf hydro =
      if lm < pm then some ((jsRound (ls / lm * pm * 10) : ℚ) / 10) else none := by
  unfold projectedPeakOf
  rw [if_pos hlen, hlast]
  have h1 : truthy latest.median = true := by
    simp only [truthy, hmed, bne_iff_ne, ne_eq, decide_eq_true_eq]
    exact ne_of_gt hlm
  have h2 : truthy latest.swe = true := by
    simp only [truthy, hswe, bne_iff_ne, ne_eq, decide_eq_true_eq]
    exact hls
  have h3 : decide (0 < latest.median.getD 0) = true := by
    rw [hmed]; exact decide_eq_true hlm
  dsimp only
  rw [h1, h2, h3]
  simp only [Bool.and_self, Bool.true_and, if_true]
  simp only [hmed, hswe, Option.getD_some, hmax]

/-- Helper: the value the source projects for `exHydro`
(`Math.round((1/3)*7*10)/10 = 2.3`). -/
theorem exHydro_projected : projectedPeakOf exHydro = some (23/10) := by
  have h := projectedPeakOf_pos exHydro ⟨⟨2025, 9, 6⟩, 6, some 1, some 3, none⟩ 3 1 7
    (by decide) rfl rfl (by norm_num) rfl (by norm_num) (by decide)
  rw [h, if_pos (by norm_num)]
  norm_num [jsRound]

/-- C5 (amended): the peak projection is `none` when the current water
year has at most 5 observations, `none` when the latest entry's median is
missing, zero or negative, `none` when the latest entry's value is missing
or zero, `none` when the historical peak median does not exceed the latest
median, and otherwise equals `(currentValue / currentMedian) ×
historicalPeakMedian` *rounded to one decimal place* — the original
claim's unrounded value and its silence on the zero-value guard are
refuted by the counterexample. -/
theorem c5_projection_guards (hydro : List HydroPoint) :
    (hydro.length ≤ 5 → projectedPeakOf hydro = none) ∧
    (∀ latest, hydro.getLast? = some latest →
      (latest.median.getD 0 ≤ 0 ∨ latest.swe = none ∨ latest.swe = some 0) →
      projectedPeakOf hydro = none) ∧
    (∀ latest lm ls pm, 5 < hydro.length → hydro.getLast? = some latest →
      latest.median = some lm → 0 < lm → latest.swe = some ls → ls ≠ 0 →
      listMax (hydro.filterMap (fun h => h.median)) = some pm →
      projectedPeakOf hydro =
        if lm < pm then some ((jsRound (ls / lm * pm * 10) : ℚ) / 10) else none) := by
  refine ⟨?_, ?_, ?_⟩
  · intro h
    unfold projectedPeakOf
    rw [if_neg (by omega)]
  · intro latest hlast hcase
    by_cases hlen : 5 < hydro.length
    · unfold projectedPeakOf
      rw [if_pos hlen, hlast]
      rcases hcase with h | h | h
      · have hm : truthy latest.median = false ∨
            decide (0 < latest.median.getD 0) = false := by
          cases hmed : latest.median with
          | none => exact Or.inl rfl
          | some m =>
            rw [hmed] at h
            simp only [Option.getD_some] at h
            by_cases hm0 : m = 0
            · exact Or.inl (by simp [truthy, hmed, hm0])
            · exact Or.inr (decide_eq_false (by simp [hmed]; exact h))
        rcases hm with hm | hm <;> simp [hm]
      · simp [truthy, h]
      · simp [truthy, h]
    · unfold projectedPeakOf
      rw [if_neg hlen]
  · exact fun latest lm ls pm hlen hlast hmed hlm hswe hls hmax =>
      projectedPeakOf_pos hydro latest lm ls pm hlen hlast hmed hlm hswe hls hmax

/-- C10 (confirmed): the projection consults only the final element of
the current-season series: whenever the last entry has a missing or zero
value, or a missing or zero median, the projection is `none`, no matter
how many earlier entries hold valid (value, median) pairs — there is no
backward search. -/
theorem c10_projection_last_only (hydro : List HydroPoint) (latest : HydroPoint)
    (hlen : 5 < hydro.length) (hlast : hydro.getLast? = some latest)
    (h : latest.swe = none ∨ latest.swe = some 0 ∨
         latest.median = none ∨ latest.median = some 0) :
    projectedPeakOf hydro = none := by
  unfold projectedPeakOf
  rw [if_pos hlen, hlast]
  rcases h with h | h | h | h <;> simp [truthy, h]


/-- C1 counterexample: a water year with exactly 60 valid observations
receives no `WaterYearSummary`, refuting the claim's "at least 60"
boundary. -/
theorem c1_counterexample : countValidObs ex60 2000 = 60 ∧ waterYearsOf ex60 = [] := by
  decide

/-- C2 counterexample: for a 61-observation year whose values are all
negative, the produced summary reports `peakSWE = 0`, which is not the
maximum of the observed values (they are all below zero). -/
theorem c2_counterexample :
    (waterYearsOf exNeg).map (fun s => s.peakSWE) = [0] ∧
    (yearVals exNeg 2000).all (fun v => decide (v < 0)) = true ∧
    (yearVals exNeg 2000).length = 61 := by
  decide

/-- C2 witness: the amended theorem applied to the concrete series `exW`
and its summary. -/
theorem c2_witness :
    listMax (yearVals exW 2000) = some 10 ∧
    listMinDate (((groupWY exW 2000).filter
        (fun d => decide (d.swe = some (10 : ℚ)))).map (fun d => d.date)) =
      some ⟨1999, 9, 30⟩ :=
  c2_peak_statistics exW sExW (by decide) (by decide)

/-- C3 witness: the ordering theorem applied to the concrete series `exW`
(onset Oct 1, peak Oct 30, melt-out Nov 30). -/
theorem c3_witness :
    ((⟨1999, 9, 1⟩ : CalDate) ≤ ⟨1999, 9, 30⟩) ∧
    ((⟨1999, 9, 30⟩ : CalDate) ≤ ⟨1999, 10, 30⟩) := by
  have h := c3_onset_peak_meltout_ordering exW sExW (by decide)
  exact ⟨h.1 ⟨1999, 9, 1⟩ rfl, h.2 ⟨1999, 10, 30⟩ rfl⟩

/-- C4 witness: a current value above every pooled value ranks
`totalYears + 1` on the concrete series `exW`. -/
theorem c4_witness :
    (computeAnalytics ⟨2026, 9, 15⟩ exW stW [] []).currentRank =
      (computeAnalytics ⟨2026, 9, 15⟩ exW stW [] []).totalYears + 1 :=
  (c4_current_rank ⟨2026, 9, 15⟩ exW stW [] []).2.1 (by decide)

/-- C5 counterexample: `exHydro` has 6 observations, latest value 1 and
median 3, peak median 7 (> 3), so the claim as stated predicts a
projection of `(1/3) × 7 = 7/3`; the code returns `2.3`, the one-decimal
rounding of that value. -/
theorem c5_counterexample :
    exHydro.length = 6 ∧
    exHydro.getLast? = some ⟨⟨2025, 9, 6⟩, 6, some 1, some 3, none⟩ ∧
    listMax (exHydro.filterMap (fun h => h.median)) = some 7 ∧
    projectedPeakOf exHydro = some (23/10) ∧
    (23/10 : ℚ) ≠ 1/3 * 7 :=
  ⟨rfl, rfl, by decide, exHydro_projected, by norm_num⟩

/-- C5 witness: the amended characterisation applied to concrete inputs
(too few observations, and the positive rounded path). -/
theorem c5_witness :
    projectedPeakOf (exHydro.take 5) = none ∧
    projectedPeakOf exHydro = some ((jsRound ((1 : ℚ) / 3 * 7 * 10) : ℚ) / 10) := by
  constructor
  · exact (c5_projection_guards (exHydro.take 5)).1 (by decide)
  · have h := (c5_projection_guards exHydro).2.2
      ⟨⟨2025, 9, 6⟩, 6, some 1, some 3, none⟩ 3 1 7
      (by decide) rfl rfl (by norm_num) rfl (by norm_num) (by decide)
    rw [h, if_pos (by norm_num)]

/-- C6 witness: the degeneracy theorem applied at concrete inputs
(identical xs, and constant ys). -/
theorem c6_witness :
    linearRegression [(1 : ℚ), 1, 1] [2, 5, 8] = ⟨0, 5, 0⟩ ∧
    (linearRegression [(1 : ℚ), 2, 3] [4, 4, 4]).r2 = 0 := by
  constructor
  · have h := (c6_regression_degeneracies [(1 : ℚ), 1, 1] [2, 5, 8] rfl).2.1 1
      (by norm_num) (by decide)
    have hsum : ([2, 5, 8] : List ℚ).sum = 15 := by norm_num [List.sum_cons]
    rw [h, hsum]
    norm_num [RegResult.mk.injEq]
  · exact (c6_regression_degeneracies [(1 : ℚ), 2, 3] [4, 4, 4] rfl).2.2 4 (by decide)

/-- C7 witness: a station with exactly 3 sufficiently observed years
produces 3 summaries and a non-significant peak trend. -/
theorem c7_witness :
    (waterYearsOf por3).length = 3 ∧
    (computeAnalytics ⟨2026, 9, 15⟩ por3 st0 [] []).peakTrendSignificant = false :=
  ⟨by decide, (c7_significance_heuristic ⟨2026, 9, 15⟩ por3 st0 [] []).2 (by decide)⟩

/-- C8 counterexample: the same four data inputs computed at two different
wall-clock dates give different `StationAnalytics` (the ±3-day pool near
the October date contains one year, the June pool none), refuting the
claim that the result is a function of the four inputs with "today"
injected rather than read from the clock. -/
theorem c8_counterexample :
    computeAnalytics ⟨2026, 9, 15⟩ exW st0 [] [] ≠
      computeAnalytics ⟨2026, 5, 15⟩ exW st0 [] [] := by
  intro h
  exact absurd (congrArg StationAnalytics.totalYears h) (by decide)

/-- C8 witness: two distinct date records with the same day-of-water-year
and water-year start produce identical analytics. -/
theorem c8_witness :
    computeAnalytics ⟨1999, 9, 1⟩ exW st0 [] [] =
      computeAnalytics ⟨1999, 9, 0⟩ exW st0 [] [] :=
  c8_clock_determinism ⟨1999, 9, 1⟩ ⟨1999, 9, 0⟩ exW st0 [] [] (by decide) (by decide)

/-- C9 counterexample: October values 1, 1, 1, 2 have exact mean 5/4, but
the core returns the rounded 1.3 in `monthlyClim`, refuting the claim
that the climatology is returned unrounded. -/
theorem c9_counterexample :
    (computeAnalytics ⟨2026, 9, 15⟩ por4 st0 [] []).monthlyClim.headI.avg = 13/10 ∧
    ((monthVals por4 9).sum / (monthVals por4 9).length : ℚ) = 5/4 ∧
    (13/10 : ℚ) ≠ 5/4 := by
  refine ⟨?_, ?_, by norm_num⟩
  · have hmc : (computeAnalytics ⟨2026, 9, 15⟩ por4 st0 [] []).monthlyClim =
        monthlyClimOf por4 := rfl
    rw [hmc]
    have hmv : monthVals por4 9 = [1, 1, 1, 2] := by decide
    unfold monthlyClimOf SNOW_MONTHS
    simp only [List.map_cons, List.headI, hmv]
    norm_num [jsRound]
  · have hmv : monthVals por4 9 = [1, 1, 1, 2] := by decide
    rw [hmv]
    norm_num [List.sum_cons]

/-- C9 witness: the rounding theorem applied to a concrete projection
(2.3 times 10 is an integer). -/
theorem c9_witness : (((23 : ℚ)/10) * 10).den = 1 :=
  (c9_internal_rounding ⟨2026, 9, 15⟩ [] st0 [] exHydro).2 (23/10)
    ((show (computeAnalytics ⟨2026, 9, 15⟩ [] st0 [] exHydro).projectedPeak =
        projectedPeakOf exHydro from rfl).trans exHydro_projected)

/-- C10 witness: six observations with valid earlier pairs but a zero
latest value project to `none`. -/
theorem c10_witness : projectedPeakOf exHydro0 = none :=
  c10_projection_last_only exHydro0 ⟨⟨2025, 9, 6⟩, 6, some 0, some 7, none⟩
    (by decide) rfl (Or.inr (Or.inl rfl))


end SnowTracker
